import Mathlib

/-!
Verification of the solar-dashboard data pipeline (`app/main.py`).

The embedding models the data-access and aggregation core:
filename discovery and key extraction (`list_available_countries`),
per-region CSV loading with schema normalization (`load_country_df`),
combination of several regions (`combine_countries`), the sampling step
of `fig_boxplot`, the grouped statistics table (`top_regions_table`),
and CSV export (`to_csv`).

Strings are modelled as `List Char`; numeric measurement values as `ℚ`
(the code uses IEEE doubles; the claims under study concern definedness,
counts and exact structural facts, which are unaffected); timestamps as
`Nat` (an abstract parsed date-time ordinal).  A CSV file is a header of
column names plus records of cells, where a cell carries the typed value
its text would parse to (`Cell.time` is a cell whose text parses as a
date-time; a non-`time` cell in the Timestamp column models an
unparseable timestamp).
-/

namespace Solar

/-- One CSV cell: empty (missing / NaN), free text, a numeric value, or a
text that parses as a date-time. -/
inductive Cell where
  | empty : Cell
  | str : List Char → Cell
  | num : ℚ → Cell
  | time : Nat → Cell
deriving DecidableEq

/-- One measurement row of a loaded table.  `comments` and `country` are
the values of the optional columns; whether those columns are present at
all is recorded on the enclosing `Frame`. -/
structure Row where
  timestamp : Nat
  ghi : Option ℚ
  dni : Option ℚ
  dhi : Option ℚ
  comments : Option (List Char)
  country : Option (List Char)
deriving DecidableEq

/-- An in-memory table (models a pandas DataFrame).  `hasComments` /
`hasCountry` record whether the `Comments` / `country` columns exist in
the schema (a present column may still be entirely null). -/
structure Frame where
  hasComments : Bool
  hasCountry : Bool
  rows : List Row
deriving DecidableEq

/-- A CSV file: header of column names, then one record per row. -/
structure Csv where
  header : List (List Char)
  records : List (List Cell)
deriving DecidableEq

/-- A filesystem: maps a file name to its contents when the file exists. -/
def FileSystem : Type := List Char → Option Csv

-- Column names used by `app/main.py`.

def tsName : List Char := ['T', 'i', 'm', 'e', 's', 't', 'a', 'm', 'p']

def ghiName : List Char := ['G', 'H', 'I']

def dniName : List Char := ['D', 'N', 'I']

def dhiName : List Char := ['D', 'H', 'I']

def commentsName : List Char := ['C', 'o', 'm', 'm', 'e', 'n', 't', 's']

def countryName : List Char := ['c', 'o', 'u', 'n', 't', 'r', 'y']

/-! Section: file naming convention (`list_available_countries` / `load_country_df`). -/

/-- The characters of the literal `_clean`. -/
def cleanMark : List Char := ['_', 'c', 'l', 'e', 'a', 'n']

/-- The characters of the literal `.csv`. -/
def csvExt : List Char := ['.', 'c', 's', 'v']

/-- The characters of the literal `_clean.csv`. -/
def cleanCsvTail : List Char := cleanMark ++ csvExt

/-- Whether a file name matches the discovery glob `*_clean.csv`
(line 65 of `app/main.py`). -/
def matchesClean (name : List Char) : Bool :=
  cleanCsvTail.isSuffixOf name

/-- Python `Path.stem` for a name ending in `.csv`: the name with the final
four characters (the `.csv` extension) removed. -/
def stemCsv (name : List Char) : List Char :=
  name.take (name.length - 4)

/-- Python's `str.replace('_clean', '')`: removes every (left-to-right,
non-overlapping) occurrence of `_clean`.  `fuel` bounds recursion depth
and is instantiated with the length of the string. -/
def stripCleanAux : Nat → List Char → List Char
  | 0, s => s
  | _ + 1, [] => []
  | fuel + 1, c :: rest =>
    if cleanMark.isPrefixOf (c :: rest) then
      stripCleanAux fuel (rest.drop 5)
    else
      c :: stripCleanAux fuel rest

/-- Line 67 of `app/main.py`: `stem.replace('_clean', '')`. -/
def stripClean (s : List Char) : List Char :=
  stripCleanAux s.length s

/-- The RegionKey `list_available_countries` extracts from a discovered
file name: the stem with every occurrence of `_clean` removed. -/
def extractKey (name : List Char) : List Char :=
  stripClean (stemCsv name)

/-- The function `list_available_countries` restricted to key extraction: the keys
read off the matching names of a directory listing.  (The source sorts
the listing first; the per-file extraction studied here is unaffected.) -/
def list_available_countries (listing : List (List Char)) : List (List Char) :=
  (listing.filter matchesClean).map extractKey

/-- Path resolution of `load_country_df`: `<key>_clean.csv`
(line 72 of `app/main.py`). -/
def countryPath (key : List Char) : List Char :=
  key ++ cleanCsvTail

/-! Section: CSV parsing (`pd.read_csv(p, parse_dates=['Timestamp'])`). -/

/-- Index of the first column with the given name, if any. -/
def colIdx (name : List Char) : List (List Char) → Option Nat
  | [] => none
  | h :: t => if h = name then some 0 else (colIdx name t).map (· + 1)

/-- The cell of a record at an optional column index; `Cell.empty` when
the column is absent or the record is short. -/
def cellAt (rec : List Cell) : Option Nat → Cell
  | none => Cell.empty
  | some i => rec.getD i Cell.empty

/-- The date-time a cell's text parses to, if it parses. -/
def cellTime : Cell → Option Nat
  | Cell.time t => some t
  | _ => none

/-- The numeric value of a cell (missing cells are null). -/
def cellNum : Cell → Option ℚ
  | Cell.num q => some q
  | _ => none

/-- The text of a cell (missing cells are null). -/
def cellStr : Cell → Option (List Char)
  | Cell.str s => some s
  | _ => none

/-- Parse one CSV record into a `Row`, given the column indices.  Fails
(models `ParseError`) when the Timestamp cell does not parse as a
date-time. -/
def parseRecord (ti : Nat) (gi di hi ci ki : Option Nat)
    (rec : List Cell) : Option Row :=
  match cellTime (rec.getD ti Cell.empty) with
  | none => none
  | some t =>
    some { timestamp := t
           ghi := cellNum (cellAt rec gi)
           dni := cellNum (cellAt rec di)
           dhi := cellNum (cellAt rec hi)
           comments := cellStr (cellAt rec ci)
           country := cellStr (cellAt rec ki) }

/-- Models `pd.read_csv(..., parse_dates=['Timestamp'])`: fails (models
`ParseError`) when the required `Timestamp` column is missing or some
record's timestamp does not parse; otherwise yields a `Frame` whose
optional-column flags reflect the header. -/
def parseCsv (csv : Csv) : Option Frame :=
  match colIdx tsName csv.header with
  | none => none
  | some ti =>
    let gi := colIdx ghiName csv.header
    let di := colIdx dniName csv.header
    let hi := colIdx dhiName csv.header
    let ci := colIdx commentsName csv.header
    let ki := colIdx countryName csv.header
    match csv.records.mapM (parseRecord ti gi di hi ci ki) with
    | none => none
    | some rows =>
      some { hasComments := ci.isSome
             hasCountry := ki.isSome
             rows := rows }

/-! Section: `load_country_df`. -/

/-- Errors of the loading layer: the file is absent (`FileNotFoundError`)
or its contents fail to parse (`ParseError`). -/
inductive LoadError where
  | notFound : LoadError
  | parseFailure : LoadError
deriving DecidableEq

/-- Lines 76-77 of `app/main.py`: if the `country` column is absent, add
it, stamping every row with the requested key. -/
def stampCountry (key : List Char) (df : Frame) : Frame :=
  if df.hasCountry then df
  else { df with hasCountry := true
                 rows := df.rows.map (fun r => { r with country := some key }) }

/-- The loader `load_country_df`: resolve the path, fail with `notFound` when the
file is absent, parse it (propagating parse failure), and stamp the
requested key when the `country` column is missing. -/
def load_country_df (fs : FileSystem) (key : List Char) : Except LoadError Frame :=
  match fs (countryPath key) with
  | none => Except.error LoadError.notFound
  | some csv =>
    match parseCsv csv with
    | none => Except.error LoadError.parseFailure
    | some df => Except.ok (stampCountry key df)

/-! Section: `combine_countries`. -/

/-- Errors of `combine_countries`: a propagated parse failure, or the
`ValueError("No valid country data found")` raised when no frame was
loaded (the spec's `EmptySelectionError`). -/
inductive CombineError where
  | parseFailure : CombineError
  | emptySelection : CombineError
deriving DecidableEq

/-- A row adjusted by `pd.concat` column alignment: the values of
columns absent from the row's own frame become null. -/
def fillRow (hasC hasK : Bool) (r : Row) : Row :=
  { r with comments := if hasC then r.comments else none
           country := if hasK then r.country else none }

/-- Models `pd.concat(frames, ignore_index=True)`: the union of the frames'
schemas, rows concatenated in order, with null fill for columns a
constituent frame lacks. -/
def framesUnion (frames : List Frame) : Frame :=
  { hasComments := frames.any (·.hasComments)
    hasCountry := frames.any (·.hasCountry)
    rows := (frames.map (fun f => f.rows.map (fillRow f.hasComments f.hasCountry))).flatten }

/-- The loop of `combine_countries` (lines 81-86): load each key in
order; a missing file is skipped and recorded as one warning; a parse
failure aborts the whole loop. -/
def combineAux (fs : FileSystem) :
    List (List Char) → Except CombineError (List Frame × List (List Char))
  | [] => Except.ok ([], [])
  | k :: ks =>
    match load_country_df fs k with
    | Except.ok df =>
      match combineAux fs ks with
      | Except.ok (frames, ws) => Except.ok (df :: frames, ws)
      | Except.error e => Except.error e
    | Except.error LoadError.notFound =>
      match combineAux fs ks with
      | Except.ok (frames, ws) => Except.ok (frames, k :: ws)
      | Except.error e => Except.error e
    | Except.error LoadError.parseFailure => Except.error CombineError.parseFailure

/-- The outcome of a successful combine: the unified table and the
warnings emitted (one per skipped key, in order). -/
structure CombineResult where
  frame : Frame
  warnings : List (List Char)
deriving DecidableEq

/-- The combiner `combine_countries`: run the loading loop, fail with
`emptySelection` when no frame was collected, otherwise concatenate. -/
def combine_countries (fs : FileSystem) (keys : List (List Char)) :
    Except CombineError CombineResult :=
  match combineAux fs keys with
  | Except.error e => Except.error e
  | Except.ok (frames, ws) =>
    if frames.isEmpty then Except.error CombineError.emptySelection
    else Except.ok { frame := framesUnion frames, warnings := ws }

/-- The rows a given key contributes to the unified table: the loaded
frame's rows (after `pd.concat` column alignment), or nothing when the
key fails to load. -/
def regionSegment (fs : FileSystem) (key : List Char) : List Row :=
  match load_country_df fs key with
  | Except.ok f => f.rows.map (fillRow f.hasComments f.hasCountry)
  | Except.error _ => []

/-- The row count a given key's file contributes. -/
def regionRowCount (fs : FileSystem) (key : List Char) : Nat :=
  match load_country_df fs key with
  | Except.ok f => f.rows.length
  | Except.error _ => 0

/-! Section: the sampling step of `fig_boxplot` (lines 92-95). -/

/-- One step of a linear congruential generator; drives the modelled
pseudo-random selection of `DataFrame.sample`. -/
def lcgNext (s : Nat) : Nat :=
  (1103515245 * s + 12345) % 2147483648

/-- Models `df.sample(n, random_state=1)`: draw `n` rows without
replacement by repeatedly removing the row at a seed-determined
position.  Deterministic, as the fixed `random_state` makes the library
call. -/
def sampleAux : Nat → Nat → List Row → List Row
  | 0, _, _ => []
  | _ + 1, _, [] => []
  | n + 1, seed, c :: rest =>
    let pool := c :: rest
    let i := seed % pool.length
    match pool[i]? with
    | none => []
    | some x => x :: sampleAux n (lcgNext seed) (pool.take i ++ pool.drop (i + 1))

/-- Models `df.sample(sample_n, random_state=1)` with the fixed seed used by
`fig_boxplot`. -/
def pdSample (n : Nat) (rows : List Row) : List Row :=
  sampleAux n 1 rows

/-- The sampling step of `fig_boxplot` (lines 92-95 of `app/main.py`):
`df.sample(sample_n, random_state=1)` when `sample_n` is truthy and the
table is larger than `sample_n`, otherwise the table unchanged.
`none` models Python's `None`. -/
def fig_boxplot_sample (sample_n : Option Nat) (rows : List Row) : List Row :=
  match sample_n with
  | none => rows
  | some n => if n ≠ 0 ∧ n < rows.length then pdSample n rows else rows

/-! Section: `top_regions_table` (lines 117-125). -/

/-- The metric selector of the dashboard (`GHI`, `DNI`, `DHI`). -/
inductive Metric where
  | GHI : Metric
  | DNI : Metric
  | DHI : Metric
deriving DecidableEq

/-- The value of the chosen metric column in a row. -/
def metricOf : Metric → Row → Option ℚ
  | Metric.GHI, r => r.ghi
  | Metric.DNI, r => r.dni
  | Metric.DHI, r => r.dhi

/-- The grouping dimension `top_regions_table` can select. -/
inductive GroupCol where
  | comments : GroupCol
  | country : GroupCol
deriving DecidableEq

/-- Line 118 of `app/main.py`:
`'Comments' if 'Comments' in df.columns and df['Comments'].notna().any()
else 'country'`. -/
def groupCol (df : Frame) : GroupCol :=
  if df.hasComments && df.rows.any (fun r => r.comments.isSome) then
    GroupCol.comments
  else GroupCol.country

/-- The row field a grouping dimension reads. -/
def keyFn : GroupCol → Row → Option (List Char)
  | GroupCol.comments => fun r => r.comments
  | GroupCol.country => fun r => r.country

/-- The grouping key function `top_regions_table` uses on a given table. -/
def groupKey (df : Frame) : Row → Option (List Char) :=
  keyFn (groupCol df)

/-- Insertion into a sorted list of rationals (ascending). -/
def insertQ (x : ℚ) : List ℚ → List ℚ
  | [] => [x]
  | y :: t => if x ≤ y then x :: y :: t else y :: insertQ x t

/-- Insertion sort on rationals, used for the median. -/
def sortQ : List ℚ → List ℚ
  | [] => []
  | x :: t => insertQ x (sortQ t)

/-- The median of a list of values, pandas-style: null on the empty
list, the middle element for odd length, the average of the two middle
elements for even length. -/
def medianOf (l : List ℚ) : Option ℚ :=
  let s := sortQ l
  if s.length = 0 then none
  else if s.length % 2 = 1 then s[s.length / 2]?
  else
    match s[s.length / 2 - 1]?, s[s.length / 2]? with
    | some a, some b => some ((a + b) / 2)
    | _, _ => none

/-- One row of the `top_regions_table` output: the group key, the
non-null count `n` (pandas `count`), and the group's mean, median and
standard deviation of the metric.  All statistics ignore nulls and are
null (NaN) when undefined.  `std2` is the square of the pandas `std`
column, i.e. the sample variance with the `n - 1` denominator; squaring
preserves definedness and order, which is all the properties below
consume, and keeps the development in exact arithmetic. -/
structure AggRow where
  key : List Char
  n : Nat
  mean : Option ℚ
  median : Option ℚ
  std2 : Option ℚ
deriving DecidableEq

/-- The aggregate row of one group: pandas
`agg(['count','mean','median','std'])` over the metric column. -/
def aggOf (m : Metric) (key : List Char) (grp : List Row) : AggRow :=
  let vals := grp.filterMap (metricOf m)
  let μ : ℚ := vals.sum / (vals.length : ℚ)
  { key := key
    n := vals.length
    mean := if vals.length = 0 then none else some μ
    median := medianOf vals
    std2 :=
      if vals.length ≤ 1 then none
      else some ((vals.map (fun x => (x - μ) ^ 2)).sum / ((vals.length : ℚ) - 1)) }

/-- The comparator of `sort_values('mean', ascending=False)`: descending
by mean, null means last. -/
def aggLe (a b : AggRow) : Bool :=
  match a.mean, b.mean with
  | some x, some y => decide (y ≤ x)
  | some _, none => true
  | none, some _ => false
  | none, none => true

/-- Insertion under `aggLe`. -/
def insertAgg (a : AggRow) : List AggRow → List AggRow
  | [] => [a]
  | b :: t => if aggLe a b then a :: b :: t else b :: insertAgg a t

/-- Sorting of the aggregate rows by descending mean (the library's
quicksort is unstable, so ties carry no specified order; any comparison
sort models it up to tie order). -/
def sortAgg : List AggRow → List AggRow
  | [] => []
  | a :: t => insertAgg a (sortAgg t)

/-- The `top_regions_table` pipeline for an explicit grouping function:
group the rows by the non-null values of `f` (pandas `groupby` drops
null keys), aggregate each group, sort by descending mean, keep the
first `top_n` rows. -/
def top_table_by (f : Row → Option (List Char)) (df : Frame) (m : Metric)
    (top_n : Nat) : List AggRow :=
  let keys := (df.rows.filterMap f).dedup
  let aggs := keys.map (fun k => aggOf m k (df.rows.filter (fun r => f r = some k)))
  (sortAgg aggs).take top_n

/-- Lines 117-125 of `app/main.py`: `top_regions_table`. -/
def top_regions_table (df : Frame) (m : Metric) (top_n : Nat) : List AggRow :=
  top_table_by (groupKey df) df m top_n

/-! Section: CSV export (`df_all.to_csv(index=False)`, line 185). -/

/-- The cell encoding an optional numeric value. -/
def numCell : Option ℚ → Cell
  | none => Cell.empty
  | some q => Cell.num q

/-- The cell encoding an optional text value. -/
def strCell : Option (List Char) → Cell
  | none => Cell.empty
  | some s => Cell.str s

/-- Models `to_csv(index=False)`: the frame's columns (optional columns only
when present in the schema), one record per row, no index column.
Cells carry the value their printed text parses back to; pandas prints
floats with round-trip fidelity. -/
def to_csv (f : Frame) : Csv :=
  { header :=
      [tsName, ghiName, dniName, dhiName]
        ++ (if f.hasComments then [commentsName] else [])
        ++ (if f.hasCountry then [countryName] else [])
    records := f.rows.map (fun r =>
      [Cell.time r.timestamp, numCell r.ghi, numCell r.dni, numCell r.dhi]
        ++ (if f.hasComments then [strCell r.comments] else [])
        ++ (if f.hasCountry then [strCell r.country] else [])) }

/-- Well-formedness of a frame: the value of a column absent from the
schema is null on every row.  Every frame the pipeline produces is
well-formed. -/
def FrameWF (f : Frame) : Prop :=
  (f.hasComments = false → ∀ r ∈ f.rows, r.comments = none) ∧
    (f.hasCountry = false → ∀ r ∈ f.rows, r.country = none)

/-! Section: concrete fixtures used by witnesses and counterexamples. -/

def keyUS : List Char := ['U', 'S']

def keyDE : List Char := ['D', 'E']

def keyFR : List Char := ['F', 'R']

def keyBad : List Char := ['B', 'D']

def keyEM : List Char := ['E', 'M']

/-- A two-row file without a `country` column. -/
def csvUS : Csv :=
  { header := [tsName, ghiName, dniName, dhiName]
    records :=
      [[Cell.time 0, Cell.num 5, Cell.empty, Cell.empty],
       [Cell.time 1, Cell.num 7, Cell.empty, Cell.empty]] }

/-- A one-row file that carries its own `country` column. -/
def csvDE : Csv :=
  { header := [tsName, ghiName, dniName, dhiName, countryName]
    records := [[Cell.time 2, Cell.num 3, Cell.empty, Cell.empty, Cell.str keyDE]] }

/-- A file with a header but zero data rows. -/
def csvEmpty : Csv := { header := [tsName], records := [] }

/-- A file whose single record has an unparseable timestamp. -/
def csvBad : Csv := { header := [tsName], records := [[Cell.str ['x']]] }

/-- A filesystem holding files for `US` and `DE` only. -/
def fsTwo : FileSystem := fun n =>
  if n = countryPath keyUS then some csvUS
  else if n = countryPath keyDE then some csvDE
  else none

/-- A filesystem holding a good `US` file and a malformed `BD` file. -/
def fsMix : FileSystem := fun n =>
  if n = countryPath keyUS then some csvUS
  else if n = countryPath keyBad then some csvBad
  else none

/-- A filesystem whose only file, for key `EM`, parses to zero rows. -/
def fsEmptyRows : FileSystem := fun n =>
  if n = countryPath keyEM then some csvEmpty else none

/-- The empty filesystem. -/
def fsNone : FileSystem := fun _ => none

/-- A file that carries its own `country` column whose only value is
null: `load_country_df` does not stamp it (the column is present), so
the null survives into the unified table. -/
def csvNullCountry : Csv :=
  { header := [tsName, countryName], records := [[Cell.time 0, Cell.empty]] }

/-- A filesystem whose only file, for key `US`, is `csvNullCountry`. -/
def fsNullCountry : FileSystem := fun n =>
  if n = countryPath keyUS then some csvNullCountry else none

/-- A filesystem holding only the `US` file (which has no `country`
column). -/
def fsUS : FileSystem := fun n =>
  if n = countryPath keyUS then some csvUS else none

/-- The frame `parseCsv` produces for `csvUS`. -/
def pfUS : Frame :=
  { hasComments := false
    hasCountry := false
    rows := [{ timestamp := 0, ghi := some 5, dni := none, dhi := none,
               comments := none, country := none },
             { timestamp := 1, ghi := some 7, dni := none, dhi := none,
               comments := none, country := none }] }

/-- The result of combining `[US]` over `fsUS`. -/
def resUS : CombineResult :=
  { frame :=
      { hasComments := false
        hasCountry := true
        rows := [{ timestamp := 0, ghi := some 5, dni := none, dhi := none,
                   comments := none, country := some keyUS },
                 { timestamp := 1, ghi := some 7, dni := none, dhi := none,
                   comments := none, country := some keyUS }] }
    warnings := [] }

/-- A frame with a `Comments` column that is entirely null. -/
def dfAllNull : Frame :=
  { hasComments := true
    hasCountry := true
    rows := [{ timestamp := 0, ghi := some 1, dni := none, dhi := none,
               comments := none, country := some keyUS },
             { timestamp := 1, ghi := some 2, dni := none, dhi := none,
               comments := none, country := some keyDE }] }

/-- A concrete measurement row. -/
def rowX : Row :=
  { timestamp := 0, ghi := some 1, dni := none, dhi := none,
    comments := none, country := some keyUS }

/-- A second concrete measurement row. -/
def rowY : Row :=
  { timestamp := 1, ghi := some 2, dni := none, dhi := none,
    comments := none, country := some keyUS }

/-- A one-row table; its single group has one row. -/
def dfSingle : Frame :=
  { hasComments := false
    hasCountry := true
    rows := [{ timestamp := 0, ghi := some 5, dni := none, dhi := none,
               comments := none, country := some keyUS }] }

/-- The aggregate row `top_regions_table` produces for `dfSingle`. -/
def aggSingle : AggRow :=
  aggOf Metric.GHI keyUS
    (dfSingle.rows.filter (fun r => groupKey dfSingle r = some keyUS))

/-- The tail of `parseCsv`: package parsed rows into a frame with the
given column flags. -/
def frameOf (hc hk : Bool) : Option (List Row) → Option Frame
  | none => none
  | some rs => some { hasComments := hc, hasCountry := hk, rows := rs }

/-- The file name `A_clean_B_clean.csv`: it matches the discovery glob,
but its stem contains `_clean` twice. -/
def nameAB : List Char :=
  ['A', '_', 'c', 'l', 'e', 'a', 'n', '_', 'B', '_', 'c', 'l', 'e', 'a', 'n',
   '.', 'c', 's', 'v']

/-! Section: helper lemmas about the loading layer. -/

instance exceptDecEq {ε α : Type} [DecidableEq ε] [DecidableEq α] :
    DecidableEq (Except ε α) := fun a b =>
  match a, b with
  | Except.ok x, Except.ok y =>
    if h : x = y then Decidable.isTrue (by rw [h])
    else Decidable.isFalse (by intro hc; cases hc; exact h rfl)
  | Except.error x, Except.error y =>
    if h : x = y then Decidable.isTrue (by rw [h])
    else Decidable.isFalse (by intro hc; cases hc; exact h rfl)
  | Except.ok _, Except.error _ => Decidable.isFalse (by intro hc; cases hc)
  | Except.error _, Except.ok _ => Decidable.isFalse (by intro hc; cases hc)

theorem exceptToOption_ok {ε α : Type} (a : α) :
    (Except.ok a : Except ε α).toOption = some a := rfl

theorem exceptToOption_error {ε α : Type} (e : ε) :
    (Except.error e : Except ε α).toOption = none := rfl

theorem load_notFound_iff (fs : FileSystem) (k : List Char) :
    load_country_df fs k = Except.error LoadError.notFound ↔
      fs (countryPath k) = none := by
  unfold load_country_df
  cases h : fs (countryPath k) with
  | none => simp
  | some csv => cases hp : parseCsv csv <;> simp [hp]

theorem load_ok_iff (fs : FileSystem) (k : List Char) (f : Frame) :
    load_country_df fs k = Except.ok f ↔
      ∃ csv pf, fs (countryPath k) = some csv ∧ parseCsv csv = some pf ∧
        f = stampCountry k pf := by
  unfold load_country_df
  cases h : fs (countryPath k) with
  | none => simp
  | some csv =>
    cases hp : parseCsv csv with
    | none => simp [hp]
    | some pf =>
      simp only [hp, Except.ok.injEq]
      constructor
      · rintro rfl
        exact ⟨csv, pf, rfl, hp, rfl⟩
      · rintro ⟨csv', pf', hc, hpf, rfl⟩
        cases hc
        rw [hp] at hpf
        cases hpf
        rfl

theorem load_ok_isSome (fs : FileSystem) (k : List Char) (f : Frame)
    (h : load_country_df fs k = Except.ok f) :
    (fs (countryPath k)).isNone = false := by
  rcases (load_ok_iff fs k f).mp h with ⟨csv, _, hc, _, _⟩
  simp [hc]

/-- With no parse failure among the keys, the loading loop succeeds,
collects exactly the frames of the keys that load, and warns exactly
once per missing key, in order. -/
theorem combineAux_eq (fs : FileSystem) (keys : List (List Char))
    (h : ∀ k ∈ keys, load_country_df fs k ≠ Except.error LoadError.parseFailure) :
    combineAux fs keys =
      Except.ok (keys.filterMap (fun k => (load_country_df fs k).toOption),
        keys.filter (fun k => (fs (countryPath k)).isNone)) := by
  induction keys with
  | nil => rfl
  | cons k ks ih =>
    have hk := h k (by simp)
    have hks : ∀ k' ∈ ks, load_country_df fs k' ≠ Except.error LoadError.parseFailure :=
      fun k' hk' => h k' (List.mem_cons_of_mem _ hk')
    cases hl : load_country_df fs k with
    | ok df =>
      simp only [combineAux, hl, ih hks, List.filterMap_cons, List.filter_cons,
        exceptToOption_ok, load_ok_isSome fs k df hl]
      simp
    | error e =>
      cases e with
      | notFound =>
        have hnone : fs (countryPath k) = none := (load_notFound_iff fs k).mp hl
        simp only [combineAux, hl, ih hks, List.filterMap_cons, List.filter_cons,
          exceptToOption_error, hnone]
        simp
      | parseFailure => exact absurd hl hk

/-- The unified rows are the concatenation of the per-region segments,
in the order the keys were given. -/
theorem union_rows_eq (fs : FileSystem) (keys : List (List Char)) :
    (framesUnion (keys.filterMap (fun k => (load_country_df fs k).toOption))).rows =
      (keys.map (regionSegment fs)).flatten := by
  unfold framesUnion
  induction keys with
  | nil => rfl
  | cons k ks ih =>
    cases hl : load_country_df fs k with
    | ok df =>
      simp only [List.filterMap_cons, hl, exceptToOption_ok, List.map_cons,
        List.flatten_cons]
      rw [← ih]
      simp [regionSegment, hl]
    | error e =>
      simp only [List.filterMap_cons, hl, exceptToOption_error, List.map_cons,
        List.flatten_cons]
      rw [← ih]
      simp [regionSegment, hl]

theorem regionSegment_length (fs : FileSystem) (k : List Char) :
    (regionSegment fs k).length = regionRowCount fs k := by
  unfold regionSegment regionRowCount
  cases load_country_df fs k <;> simp

/-- With no parse failure and at least one loadable key, `combine`
succeeds with the union of the loaded frames and one warning per
missing key. -/
theorem combine_ok_eq (fs : FileSystem) (keys : List (List Char))
    (hnop : ∀ k ∈ keys, load_country_df fs k ≠ Except.error LoadError.parseFailure)
    (hsome : ∃ k ∈ keys, ∃ f, load_country_df fs k = Except.ok f) :
    combine_countries fs keys =
      Except.ok
        { frame := framesUnion (keys.filterMap (fun k => (load_country_df fs k).toOption))
          warnings := keys.filter (fun k => (fs (countryPath k)).isNone) } := by
  unfold combine_countries
  rw [combineAux_eq fs keys hnop]
  rcases hsome with ⟨k, hk, f, hf⟩
  have : f ∈ keys.filterMap (fun k => (load_country_df fs k).toOption) := by
    refine List.mem_filterMap.mpr ⟨k, hk, ?_⟩
    simp [hf, Except.toOption]
  have hne : (keys.filterMap (fun k => (load_country_df fs k).toOption)).isEmpty = false := by
    cases hl : keys.filterMap (fun k => (load_country_df fs k).toOption) with
    | nil => rw [hl] at this; cases this
    | cons a t => simp
  simp [hne]

/-! Claim C1. -/

/-- C1: for every non-empty list of region keys whose files all exist
and parse, `combine_countries` succeeds with a table whose rows are the
concatenation of the per-region segments in the order the keys were
given (hence each region's rows are contiguous and in their original
order), whose row count is the sum of the per-region row counts, and
with no warnings. -/
theorem combine_all_ok (fs : FileSystem) (keys : List (List Char))
    (hne : keys ≠ [])
    (hok : ∀ k ∈ keys, ∃ f, load_country_df fs k = Except.ok f) :
    ∃ res, combine_countries fs keys = Except.ok res ∧
      res.frame.rows = (keys.map (regionSegment fs)).flatten ∧
      res.frame.rows.length = (keys.map (regionRowCount fs)).sum ∧
      res.warnings = [] := by
  have hnop : ∀ k ∈ keys, load_country_df fs k ≠ Except.error LoadError.parseFailure := by
    intro k hk
    rcases hok k hk with ⟨f, hf⟩
    rw [hf]
    simp
  have hsome : ∃ k ∈ keys, ∃ f, load_country_df fs k = Except.ok f := by
    cases keys with
    | nil => exact absurd rfl hne
    | cons k ks => exact ⟨k, by simp, hok k (by simp)⟩
  refine ⟨_, combine_ok_eq fs keys hnop hsome, ?_, ?_, ?_⟩
  · exact union_rows_eq fs keys
  · rw [union_rows_eq fs keys, List.length_flatten, List.map_map]
    congr 1
    exact List.map_congr_left fun k _ => regionSegment_length fs k
  · refine List.filter_eq_nil_iff.mpr fun k hk => ?_
    rcases hok k hk with ⟨f, hf⟩
    rw [load_ok_isSome fs k f hf]
    simp

/-- Witness for C1 at a concrete two-region filesystem. -/
theorem combine_all_ok_witness :
    ∃ res, combine_countries fsTwo [keyUS, keyDE] = Except.ok res ∧
      res.frame.rows = ([keyUS, keyDE].map (regionSegment fsTwo)).flatten ∧
      res.frame.rows.length = ([keyUS, keyDE].map (regionRowCount fsTwo)).sum ∧
      res.warnings = [] :=
  combine_all_ok fsTwo [keyUS, keyDE] (by decide) (by
    intro k hk
    rcases List.mem_cons.mp hk with h | h
    · subst h; exact ⟨_, rfl⟩
    · have : k = keyDE := by simpa using h
      subst this; exact ⟨_, rfl⟩)

/-! Claim C2. -/

/-- Counterexample to C2 as stated: over the key list `[EM]`, whose
file exists but parses to zero rows, zero rows are loaded after
attempting all keys, yet `combine_countries` does not fail — it returns
an empty table.  The error is raised only when no *frame* was loaded,
not when zero *rows* were loaded. -/
theorem combine_zero_rows_no_error :
    combine_countries fsEmptyRows [keyEM] =
      Except.ok { frame := { hasComments := false, hasCountry := true, rows := [] }
                  warnings := [] } := by
  rfl

/-- C2 amended: for every non-empty list of region keys, if every key's
file is missing, `combine_countries` fails with the empty-selection
error.  (If some key's file exists and parses — even to zero rows — the
combine instead succeeds, possibly with an empty table: the guard
checks that no frame was loaded, not that zero rows were loaded.) -/
theorem combine_all_missing_error (fs : FileSystem) (keys : List (List Char))
    (hne : keys ≠ [])
    (hmiss : ∀ k ∈ keys, fs (countryPath k) = none) :
    combine_countries fs keys = Except.error CombineError.emptySelection := by
  have hload : ∀ k ∈ keys, load_country_df fs k = Except.error LoadError.notFound :=
    fun k hk => (load_notFound_iff fs k).mpr (hmiss k hk)
  have hnop : ∀ k ∈ keys, load_country_df fs k ≠ Except.error LoadError.parseFailure := by
    intro k hk
    rw [hload k hk]
    simp
  have hfm : keys.filterMap (fun k => (load_country_df fs k).toOption) = [] := by
    refine List.filterMap_eq_nil_iff.mpr fun k hk => ?_
    rw [hload k hk]
    rfl
  unfold combine_countries
  rw [combineAux_eq fs keys hnop, hfm]
  rfl

/-- Witness for the amended C2 on the empty filesystem. -/
theorem combine_all_missing_error_witness :
    combine_countries fsNone [keyUS] = Except.error CombineError.emptySelection :=
  combine_all_missing_error fsNone [keyUS] (by decide) (fun _ _ => rfl)

/-! Claim C3. -/

/-- C3: (a) when no key's file is malformed and at least one loads,
`combine_countries` succeeds, skipping each key whose file is absent
with exactly one warning per missing key (in order) while the remaining
keys' rows are all present; (b) a parse failure is not caught: if the
keys reached before some key `k` are not malformed and `k`'s file fails
to parse, the whole combine aborts with the parse error. -/
theorem combine_skip_missing_abort_parse :
    (∀ (fs : FileSystem) (keys : List (List Char)),
      (∀ k ∈ keys, load_country_df fs k ≠ Except.error LoadError.parseFailure) →
      (∃ k ∈ keys, ∃ f, load_country_df fs k = Except.ok f) →
      ∃ res, combine_countries fs keys = Except.ok res ∧
        res.warnings = keys.filter (fun k => (fs (countryPath k)).isNone) ∧
        res.frame.rows = (keys.map (regionSegment fs)).flatten) ∧
    (∀ (fs : FileSystem) (ks1 : List (List Char)) (k : List Char)
      (ks2 : List (List Char)),
      (∀ k' ∈ ks1, load_country_df fs k' ≠ Except.error LoadError.parseFailure) →
      load_country_df fs k = Except.error LoadError.parseFailure →
      combine_countries fs (ks1 ++ k :: ks2) = Except.error CombineError.parseFailure) := by
  constructor
  · intro fs keys hnop hsome
    exact ⟨_, combine_ok_eq fs keys hnop hsome, rfl, union_rows_eq fs keys⟩
  · intro fs ks1 k ks2 h1 h2
    have haux : ∀ ks1' : List (List Char),
        (∀ k' ∈ ks1', load_country_df fs k' ≠ Except.error LoadError.parseFailure) →
        combineAux fs (ks1' ++ k :: ks2) = Except.error CombineError.parseFailure := by
      intro ks1' h1'
      induction ks1' with
      | nil => simp [combineAux, h2]
      | cons a t ih =>
        have ha := h1' a (by simp)
        have ht : ∀ k' ∈ t, load_country_df fs k' ≠ Except.error LoadError.parseFailure :=
          fun k' hk' => h1' k' (List.mem_cons_of_mem _ hk')
        cases hl : load_country_df fs a with
        | ok df => simp [combineAux, hl, ih ht]
        | error e =>
          cases e with
          | notFound => simp [combineAux, hl, ih ht]
          | parseFailure => exact absurd hl ha
    unfold combine_countries
    rw [haux ks1 h1]

/-- Witness for C3: over `fsMix`, combining `[US, FR]` (FR missing)
succeeds with one warning for FR, while combining `[US, BD]` (BD
malformed) aborts with the parse error. -/
theorem combine_skip_missing_abort_parse_witness :
    (∃ res, combine_countries fsMix [keyUS, keyFR] = Except.ok res ∧
      res.warnings = [keyUS, keyFR].filter (fun k => (fsMix (countryPath k)).isNone) ∧
      res.frame.rows = ([keyUS, keyFR].map (regionSegment fsMix)).flatten) ∧
    combine_countries fsMix ([keyUS] ++ keyBad :: []) =
      Except.error CombineError.parseFailure := by
  refine ⟨combine_skip_missing_abort_parse.1 fsMix [keyUS, keyFR] ?_ ?_,
    combine_skip_missing_abort_parse.2 fsMix [keyUS] keyBad [] ?_ rfl⟩
  · intro k hk
    rcases List.mem_cons.mp hk with h | h
    · subst h; decide
    · have : k = keyFR := by simpa using h
      subst this; decide
  · exact ⟨keyUS, by simp, ⟨_, rfl⟩⟩
  · intro k' hk'
    have : k' = keyUS := by simpa using hk'
    subst this; decide

/-! Claim C4. -/

/-- Counterexample to C4 as stated: combining the single key `US` over
`fsNullCountry` succeeds and returns a table whose one row has a null
`country` value — stamping happens only when the `country` column is
absent, so a file carrying the column keeps its own values, null or
not. -/
theorem combine_null_region_key :
    combine_countries fsNullCountry [keyUS] =
      Except.ok
        { frame :=
            { hasComments := false
              hasCountry := true
              rows := [{ timestamp := 0, ghi := none, dni := none, dhi := none,
                         comments := none, country := none }] }
          warnings := [] } := by
  rfl

/-- All members of a successful loading loop's frame list are loads of
requested keys. -/
theorem combineAux_frames_mem (fs : FileSystem) :
    ∀ (keys : List (List Char)) (frames : List Frame) (ws : List (List Char)),
      combineAux fs keys = Except.ok (frames, ws) →
      ∀ f ∈ frames, ∃ k ∈ keys, load_country_df fs k = Except.ok f := by
  intro keys
  induction keys with
  | nil =>
    intro frames ws h f hf
    unfold combineAux at h
    cases h
    cases hf
  | cons k ks ih =>
    intro frames ws h f hf
    cases hl : load_country_df fs k with
    | ok df =>
      cases haux : combineAux fs ks with
      | ok pair =>
        rcases pair with ⟨fr1, ws1⟩
        simp only [combineAux, hl, haux, Except.ok.injEq, Prod.mk.injEq] at h
        rcases h with ⟨h1, h2⟩
        subst h1
        rcases List.mem_cons.mp hf with rfl | hf1
        · exact ⟨k, by simp, hl⟩
        · rcases ih fr1 ws1 haux f hf1 with ⟨k1, hk1, hload⟩
          exact ⟨k1, List.mem_cons_of_mem _ hk1, hload⟩
      | error e =>
        simp only [combineAux, hl, haux] at h
        exact Except.noConfusion h
    | error e =>
      cases e with
      | notFound =>
        cases haux : combineAux fs ks with
        | ok pair =>
          rcases pair with ⟨fr1, ws1⟩
          simp only [combineAux, hl, haux, Except.ok.injEq, Prod.mk.injEq] at h
          rcases h with ⟨h1, h2⟩
          subst h1
          rcases ih fr1 ws1 haux f hf with ⟨k1, hk1, hload⟩
          exact ⟨k1, List.mem_cons_of_mem _ hk1, hload⟩
        | error e1 =>
          simp only [combineAux, hl, haux] at h
          exact Except.noConfusion h
      | parseFailure =>
        simp only [combineAux, hl] at h
        exact Except.noConfusion h

/-- A successful combine's frame is the union of the frames its loading
loop collected. -/
theorem combine_ok_elim (fs : FileSystem) (keys : List (List Char))
    (res : CombineResult) (h : combine_countries fs keys = Except.ok res) :
    ∃ frames ws, combineAux fs keys = Except.ok (frames, ws) ∧
      res.frame = framesUnion frames := by
  cases haux : combineAux fs keys with
  | ok pair =>
    rcases pair with ⟨frames, ws⟩
    cases hemp : frames.isEmpty with
    | true =>
      simp only [combine_countries, haux, hemp, if_true] at h
      exact Except.noConfusion h
    | false =>
      simp only [combine_countries, haux, hemp] at h
      rw [if_neg (by simp)] at h
      injection h with h
      exact ⟨frames, ws, rfl, by rw [← h]⟩
  | error e =>
    simp only [combine_countries, haux] at h
    exact Except.noConfusion h

/-- C4 amended: provided no requested key's file already carries a
`country` column (files that do keep their own values verbatim, null or
foreign), every row of a successful combine has a non-null `country`
equal to one of the requested keys: rows of files lacking the column
are stamped with the requested key before reaching the unified table. -/
theorem combine_stamps_when_absent (fs : FileSystem) (keys : List (List Char))
    (res : CombineResult)
    (hnoc : ∀ k ∈ keys, ∀ csv, fs (countryPath k) = some csv →
      ∀ pf, parseCsv csv = some pf → pf.hasCountry = false)
    (hok : combine_countries fs keys = Except.ok res) :
    ∀ r ∈ res.frame.rows, ∃ k ∈ keys, r.country = some k := by
  intro r hr
  rcases combine_ok_elim fs keys res hok with ⟨frames, ws, haux, hframe⟩
  rw [hframe] at hr
  unfold framesUnion at hr
  simp only [List.mem_flatten, List.mem_map] at hr
  rcases hr with ⟨l, ⟨f, hf, rfl⟩, hrl⟩
  rcases List.mem_map.mp hrl with ⟨r0, hr0, rfl⟩
  rcases combineAux_frames_mem fs keys frames ws haux f hf with ⟨k, hk, hload⟩
  rcases (load_ok_iff fs k f).mp hload with ⟨csv, pf, hcsv, hpf, rfl⟩
  have hnc : pf.hasCountry = false := hnoc k hk csv hcsv pf hpf
  unfold stampCountry at hr0 ⊢
  rw [hnc] at hr0 ⊢
  simp only [if_neg Bool.false_ne_true, Bool.false_eq_true, if_false] at hr0 ⊢
  rcases List.mem_map.mp hr0 with ⟨r1, hr1, rfl⟩
  refine ⟨k, hk, ?_⟩
  simp [fillRow]

/-- Witness for the amended C4: over `fsUS` the first returned row is
stamped with the requested key. -/
theorem combine_stamps_when_absent_witness :
    ∃ k ∈ [keyUS],
      ({ timestamp := 0, ghi := some 5, dni := none, dhi := none,
         comments := none, country := some keyUS } : Row).country = some k := by
  refine combine_stamps_when_absent fsUS [keyUS] resUS ?_ rfl _ (by simp [resUS])
  intro k hk csv hcsv pf hpf
  have hkk : k = keyUS := by simpa using hk
  subst hkk
  rw [show fsUS (countryPath keyUS) = some csvUS from rfl] at hcsv
  cases hcsv
  rw [show parseCsv csvUS = some pfUS from rfl] at hpf
  cases hpf
  rfl

/-! Claim C5. -/

/-- C5: `top_regions_table` groups by the `Comments` column exactly when
that column is present in the schema and some row has a non-null value
in it; otherwise — in particular when `Comments` is present but
entirely null — it groups by the `country` column. -/
theorem top_groups_dimension (df : Frame) (m : Metric) (tn : Nat) :
    ((df.hasComments = true ∧ ∃ r ∈ df.rows, r.comments.isSome = true) →
      top_regions_table df m tn = top_table_by (fun r => r.comments) df m tn) ∧
    ((df.hasComments = false ∨ ∀ r ∈ df.rows, r.comments = none) →
      top_regions_table df m tn = top_table_by (fun r => r.country) df m tn) := by
  constructor
  · rintro ⟨hc, r, hr, hs⟩
    have hcol : groupCol df = GroupCol.comments := by
      unfold groupCol
      rw [if_pos]
      simp only [hc, Bool.true_and, List.any_eq_true]
      exact ⟨r, hr, hs⟩
    unfold top_regions_table groupKey
    rw [hcol]
    rfl
  · intro h
    have hcol : groupCol df = GroupCol.country := by
      unfold groupCol
      rw [if_neg]
      intro hcond
      simp only [Bool.and_eq_true, List.any_eq_true] at hcond
      rcases hcond with ⟨hc, r, hr, hs⟩
      rcases h with h | h
      · rw [h] at hc; cases hc
      · rw [h r hr] at hs; cases hs
    unfold top_regions_table groupKey
    rw [hcol]
    rfl

/-- Witness for C5: on a table whose `Comments` column is present but
entirely null, grouping falls back to `country`. -/
theorem top_groups_dimension_witness :
    top_regions_table dfAllNull Metric.GHI 10 =
      top_table_by (fun r => r.country) dfAllNull Metric.GHI 10 :=
  (top_groups_dimension dfAllNull Metric.GHI 10).2 (Or.inr (by decide))

/-! Claim C6. -/

/-- Counterexample to C6 as stated: with `sample_n = 0` and a one-row
table, the table has more rows than `sample_n`, yet the sampling step
returns the full table (one row, not `sample_n = 0` rows): Python's
`if sample_n and ...` treats `0` as falsy and disables the bound. -/
theorem sample_zero_bound_ignored :
    fig_boxplot_sample (some 0) [rowX] = [rowX] ∧ 0 < [rowX].length :=
  ⟨rfl, by decide⟩

theorem sampleAux_length :
    ∀ (k seed : Nat) (pool : List Row), k ≤ pool.length →
      (sampleAux k seed pool).length = k := by
  intro k
  induction k with
  | zero => intro seed pool h; rfl
  | succ n ih =>
    intro seed pool h
    cases pool with
    | nil => simp at h
    | cons c rest =>
      have hlen : 0 < (c :: rest).length := by simp
      have hi : seed % (c :: rest).length < (c :: rest).length := Nat.mod_lt _ hlen
      simp only [sampleAux, List.getElem?_eq_getElem hi]
      have hrec : n ≤ ((c :: rest).take (seed % (c :: rest).length) ++
          (c :: rest).drop (seed % (c :: rest).length + 1)).length := by
        rw [List.length_append, List.length_take, List.length_drop]
        omega
      rw [List.length_cons, ih (lcgNext seed) _ hrec]

theorem sampleAux_subperm :
    ∀ (k seed : Nat) (pool : List Row),
      List.Subperm (sampleAux k seed pool) pool := by
  intro k
  induction k with
  | zero => intro seed pool; exact List.nil_subperm
  | succ n ih =>
    intro seed pool
    cases pool with
    | nil => exact List.nil_subperm
    | cons c rest =>
      have hlen : 0 < (c :: rest).length := by simp
      have hi : seed % (c :: rest).length < (c :: rest).length := Nat.mod_lt _ hlen
      simp only [sampleAux, List.getElem?_eq_getElem hi]
      rcases ih (lcgNext seed) ((c :: rest).take (seed % (c :: rest).length) ++
          (c :: rest).drop (seed % (c :: rest).length + 1)) with ⟨l, hperm, hsl⟩
      refine List.Subperm.trans
        ⟨(c :: rest)[seed % (c :: rest).length] :: l,
          List.Perm.cons _ hperm, List.Sublist.cons₂ _ hsl⟩ ?_
      refine List.Perm.subperm ?_
      have hmid := (@List.perm_middle Row
        ((c :: rest)[seed % (c :: rest).length])
        ((c :: rest).take (seed % (c :: rest).length))
        ((c :: rest).drop (seed % (c :: rest).length + 1))).symm
      refine hmid.trans ?_
      rw [List.getElem_cons_drop _ _ hi, List.take_append_drop]

/-- C6 amended: for every *positive* `sample_n`, the sampling step of
`fig_boxplot` returns the table unchanged when it has at most
`sample_n` rows, and otherwise returns exactly `sample_n` rows, all
drawn without replacement from the original table (a sub-permutation).
Reproducibility across repeated calls holds definitionally: the fixed
`random_state` makes the model a pure function of its inputs.  (For
`sample_n = 0` the claim fails; the bound is disabled, see the
counterexample.) -/
theorem sample_bound (n : Nat) (rows : List Row) (hn : 0 < n) :
    (rows.length ≤ n → fig_boxplot_sample (some n) rows = rows) ∧
    (n < rows.length → (fig_boxplot_sample (some n) rows).length = n ∧
      List.Subperm (fig_boxplot_sample (some n) rows) rows) := by
  constructor
  · intro hle
    simp only [fig_boxplot_sample]
    rw [if_neg]
    rintro ⟨-, hgt⟩
    omega
  · intro hgt
    have hcond : n ≠ 0 ∧ n < rows.length := ⟨Nat.pos_iff_ne_zero.mp hn, hgt⟩
    simp only [fig_boxplot_sample]
    rw [if_pos hcond]
    exact ⟨sampleAux_length n 1 rows (Nat.le_of_lt hgt),
      sampleAux_subperm n 1 rows⟩

/-- Witness for the amended C6: sampling one row from a two-row table
yields exactly one row, drawn from the table. -/
theorem sample_bound_witness :
    (fig_boxplot_sample (some 1) [rowX, rowY]).length = 1 ∧
      List.Subperm (fig_boxplot_sample (some 1) [rowX, rowY]) [rowX, rowY] :=
  (sample_bound 1 [rowX, rowY] (by decide)).2 (by decide)

/-! Claim C10. -/

/-- C10: with `sample_n` equal to `None` or `0`, the sampling step
returns the full table unchanged regardless of its size — the falsy
value disables the size bound rather than producing an empty sample or
an error. -/
theorem sample_falsy_disabled (rows : List Row) :
    fig_boxplot_sample none rows = rows ∧
      fig_boxplot_sample (some 0) rows = rows := by
  refine ⟨rfl, ?_⟩
  simp only [fig_boxplot_sample]
  rw [if_neg]
  rintro ⟨h0, -⟩
  exact h0 rfl

/-! Claim C7. -/

theorem mem_insertAgg (a x : AggRow) (l : List AggRow) :
    x ∈ insertAgg a l ↔ x = a ∨ x ∈ l := by
  induction l with
  | nil => simp [insertAgg]
  | cons b t ih =>
    unfold insertAgg
    by_cases h : aggLe a b = true
    · simp [h]
    · simp only [if_neg h, List.mem_cons, ih]
      tauto

theorem mem_sortAgg (x : AggRow) (l : List AggRow) :
    x ∈ sortAgg l ↔ x ∈ l := by
  induction l with
  | nil => simp [sortAgg]
  | cons a t ih => simp [sortAgg, mem_insertAgg, ih]

/-- C7: every row of the `top_regions_table` output whose group —
under the grouping key the table selects — consists of exactly one row
of the table has a null (NaN) standard deviation, never `0`: the sample
standard deviation uses the `n - 1` denominator and is undefined for a
single observation. -/
theorem top_groups_single_row_std (df : Frame) (m : Metric) (tn : Nat)
    (row : AggRow) (hmem : row ∈ top_regions_table df m tn)
    (h1 : (df.rows.filter (fun r => groupKey df r = some row.key)).length = 1) :
    row.std2 = none := by
  unfold top_regions_table top_table_by at hmem
  have hmem1 := List.mem_of_mem_take hmem
  rw [mem_sortAgg] at hmem1
  rcases List.mem_map.mp hmem1 with ⟨k, hk, hrow⟩
  have hkey : row.key = k := by rw [← hrow]; rfl
  rw [hkey] at h1
  have hvals : ((df.rows.filter (fun r => groupKey df r = some k)).filterMap
      (metricOf m)).length ≤ 1 := by
    calc ((df.rows.filter (fun r => groupKey df r = some k)).filterMap
        (metricOf m)).length
        ≤ (df.rows.filter (fun r => groupKey df r = some k)).length :=
          List.length_filterMap_le _ _
      _ = 1 := h1
  rw [← hrow]
  simp only [aggOf]
  rw [if_pos hvals]

/-- Witness for C7: on the one-row table, the produced aggregate row is
in the output, its group has exactly one row, and its standard
deviation is null. -/
theorem top_groups_single_row_std_witness :
    aggSingle ∈ top_regions_table dfSingle Metric.GHI 10 ∧
      aggSingle.std2 = none := by
  have hmem : aggSingle ∈ top_regions_table dfSingle Metric.GHI 10 := by
    rw [show top_regions_table dfSingle Metric.GHI 10 = [aggSingle] from rfl]
    exact List.mem_singleton.mpr rfl
  refine ⟨hmem, top_groups_single_row_std dfSingle Metric.GHI 10 aggSingle hmem ?_⟩
  rw [show aggSingle.key = keyUS from rfl]
  rfl

/-! Claim C8. -/

@[simp] theorem cellNum_numCell (o : Option ℚ) : cellNum (numCell o) = o := by
  cases o <;> rfl

@[simp] theorem cellStr_strCell (o : Option (List Char)) :
    cellStr (strCell o) = o := by
  cases o <;> rfl

@[simp] theorem cellStr_empty : cellStr Cell.empty = none := rfl

@[simp] theorem cellNum_empty : cellNum Cell.empty = none := rfl

/-- Parsing back the serialized records recovers the rows exactly. -/
theorem mapM_parse_ser (hcB hkB : Bool) (rows : List Row)
    (hcn : hcB = false → ∀ r ∈ rows, r.comments = none)
    (hkn : hkB = false → ∀ r ∈ rows, r.country = none) :
    (rows.map (fun r =>
        [Cell.time r.timestamp, numCell r.ghi, numCell r.dni, numCell r.dhi]
          ++ (if hcB then [strCell r.comments] else [])
          ++ (if hkB then [strCell r.country] else []))).mapM
      (parseRecord 0 (some 1) (some 2) (some 3)
        (if hcB then some 4 else none)
        (if hkB then (if hcB then some 5 else some 4) else none)) = some rows := by
  induction rows with
  | nil => cases hcB <;> cases hkB <;> rfl
  | cons r t ih =>
    have hcn1 : hcB = false → ∀ x ∈ t, x.comments = none :=
      fun h x hx => hcn h x (List.mem_cons_of_mem _ hx)
    have hkn1 : hkB = false → ∀ x ∈ t, x.country = none :=
      fun h x hx => hkn h x (List.mem_cons_of_mem _ hx)
    have hrc : hcB = false → r.comments = none := fun h => hcn h r (by simp)
    have hrk : hkB = false → r.country = none := fun h => hkn h r (by simp)
    have hr : parseRecord 0 (some 1) (some 2) (some 3)
        (if hcB then some 4 else none)
        (if hkB then (if hcB then some 5 else some 4) else none)
        ([Cell.time r.timestamp, numCell r.ghi, numCell r.dni, numCell r.dhi]
          ++ (if hcB then [strCell r.comments] else [])
          ++ (if hkB then [strCell r.country] else [])) = some r := by
      obtain ⟨ts, g, d, dh2, cm, ct⟩ := r
      cases hcB <;> cases hkB <;>
        simp_all [parseRecord, cellAt, cellTime, List.getD]
    rw [List.map_cons, List.mapM_cons, hr, ih hcn1 hkn1]
    rfl

/-- Parsing the serialized CSV of a well-formed record set recovers the
frame exactly. -/
theorem parseCsv_serialized (hcB hkB : Bool) (rows : List Row)
    (hcn : hcB = false → ∀ r ∈ rows, r.comments = none)
    (hkn : hkB = false → ∀ r ∈ rows, r.country = none) :
    parseCsv
      { header := [tsName, ghiName, dniName, dhiName]
          ++ (if hcB then [commentsName] else [])
          ++ (if hkB then [countryName] else [])
        records := rows.map (fun r =>
          [Cell.time r.timestamp, numCell r.ghi, numCell r.dni, numCell r.dhi]
            ++ (if hcB then [strCell r.comments] else [])
            ++ (if hkB then [strCell r.country] else [])) } =
      some { hasComments := hcB, hasCountry := hkB, rows := rows } := by
  cases hcB with
  | false =>
    cases hkB with
    | false =>
      have hm : (rows.map (fun r =>
          [Cell.time r.timestamp, numCell r.ghi, numCell r.dni, numCell r.dhi])).mapM
            (parseRecord 0 (some 1) (some 2) (some 3) none none) = some rows :=
        mapM_parse_ser false false rows hcn hkn
      show frameOf false false ((rows.map (fun r =>
          [Cell.time r.timestamp, numCell r.ghi, numCell r.dni, numCell r.dhi])).mapM
            (parseRecord 0 (some 1) (some 2) (some 3) none none)) =
        some { hasComments := false, hasCountry := false, rows := rows }
      rw [hm]
      rfl
    | true =>
      have hm : (rows.map (fun r =>
          [Cell.time r.timestamp, numCell r.ghi, numCell r.dni, numCell r.dhi,
            strCell r.country])).mapM
            (parseRecord 0 (some 1) (some 2) (some 3) none (some 4)) = some rows :=
        mapM_parse_ser false true rows hcn hkn
      show frameOf false true ((rows.map (fun r =>
          [Cell.time r.timestamp, numCell r.ghi, numCell r.dni, numCell r.dhi,
            strCell r.country])).mapM
            (parseRecord 0 (some 1) (some 2) (some 3) none (some 4))) =
        some { hasComments := false, hasCountry := true, rows := rows }
      rw [hm]
      rfl
  | true =>
    cases hkB with
    | false =>
      have hm : (rows.map (fun r =>
          [Cell.time r.timestamp, numCell r.ghi, numCell r.dni, numCell r.dhi,
            strCell r.comments])).mapM
            (parseRecord 0 (some 1) (some 2) (some 3) (some 4) none) = some rows :=
        mapM_parse_ser true false rows hcn hkn
      show frameOf true false ((rows.map (fun r =>
          [Cell.time r.timestamp, numCell r.ghi, numCell r.dni, numCell r.dhi,
            strCell r.comments])).mapM
            (parseRecord 0 (some 1) (some 2) (some 3) (some 4) none)) =
        some { hasComments := true, hasCountry := false, rows := rows }
      rw [hm]
      rfl
    | true =>
      have hm : (rows.map (fun r =>
          [Cell.time r.timestamp, numCell r.ghi, numCell r.dni, numCell r.dhi,
            strCell r.comments, strCell r.country])).mapM
            (parseRecord 0 (some 1) (some 2) (some 3) (some 4) (some 5)) = some rows :=
        mapM_parse_ser true true rows hcn hkn
      show frameOf true true ((rows.map (fun r =>
          [Cell.time r.timestamp, numCell r.ghi, numCell r.dni, numCell r.dhi,
            strCell r.comments, strCell r.country])).mapM
            (parseRecord 0 (some 1) (some 2) (some 3) (some 4) (some 5))) =
        some { hasComments := true, hasCountry := true, rows := rows }
      rw [hm]
      rfl

/-- A well-formed frame round-trips exactly through
`to_csv` / `parseCsv`. -/
theorem parse_to_csv (f : Frame) (hwf : FrameWF f) :
    parseCsv (to_csv f) = some f := by
  obtain ⟨h1, h2⟩ := hwf
  have h := parseCsv_serialized f.hasComments f.hasCountry f.rows h1 h2
  unfold to_csv
  rw [h]

/-- The union of any frame list is well-formed: values of columns a
constituent frame lacks are nulled during concatenation, so an absent
combined column is all-null. -/
theorem framesUnion_wf (frames : List Frame) : FrameWF (framesUnion frames) := by
  constructor
  · intro h r hr
    unfold framesUnion at h hr
    simp only [List.any_eq_false] at h
    simp only [List.mem_flatten, List.mem_map] at hr
    rcases hr with ⟨l, ⟨f, hf, rfl⟩, hrl⟩
    rcases List.mem_map.mp hrl with ⟨r0, hr0, rfl⟩
    have : ¬ f.hasComments = true := h f hf
    simp [fillRow, this]
  · intro h r hr
    unfold framesUnion at h hr
    simp only [List.any_eq_false] at h
    simp only [List.mem_flatten, List.mem_map] at hr
    rcases hr with ⟨l, ⟨f, hf, rfl⟩, hrl⟩
    rcases List.mem_map.mp hrl with ⟨r0, hr0, rfl⟩
    have : ¬ f.hasCountry = true := h f hf
    simp [fillRow, this]

/-- C8: for every non-empty list of region keys whose files all exist
and parse, serializing the combined table to CSV and parsing it back
with the loader's parsing logic recovers the combined table exactly —
in particular the same row count, the same column set and equal metric
values (the model's exact rationals stand for pandas' round-tripping
float formatting). -/
theorem csv_roundtrip (fs : FileSystem) (keys : List (List Char))
    (hne : keys ≠ [])
    (hok : ∀ k ∈ keys, ∃ f, load_country_df fs k = Except.ok f) :
    ∃ res, combine_countries fs keys = Except.ok res ∧
      parseCsv (to_csv res.frame) = some res.frame := by
  have hnop : ∀ k ∈ keys, load_country_df fs k ≠ Except.error LoadError.parseFailure := by
    intro k hk
    rcases hok k hk with ⟨f, hf⟩
    rw [hf]
    simp
  have hsome : ∃ k ∈ keys, ∃ f, load_country_df fs k = Except.ok f := by
    cases keys with
    | nil => exact absurd rfl hne
    | cons k ks => exact ⟨k, by simp, hok k (by simp)⟩
  exact ⟨_, combine_ok_eq fs keys hnop hsome,
    parse_to_csv _ (framesUnion_wf _)⟩

/-- Witness for C8 on the concrete two-region filesystem. -/
theorem csv_roundtrip_witness :
    ∃ res, combine_countries fsTwo [keyUS, keyDE] = Except.ok res ∧
      parseCsv (to_csv res.frame) = some res.frame :=
  csv_roundtrip fsTwo [keyUS, keyDE] (by decide) (by
    intro k hk
    rcases List.mem_cons.mp hk with h | h
    · subst h; exact ⟨_, rfl⟩
    · have : k = keyDE := by simpa using h
      subst this; exact ⟨_, rfl⟩)

/-! Claim C9. -/

/-- Counterexample to C9 as stated: `A_clean_B_clean.csv` matches the
discovery glob, but Python's `replace('_clean', '')` removes *every*
occurrence, extracting the key `A_B`, which the loader resolves to
`A_B_clean.csv` — a different file. -/
theorem discovery_inverse_counterexample :
    matchesClean nameAB = true ∧ countryPath (extractKey nameAB) ≠ nameAB := by
  decide

/-- The mark `_clean` is not a prefix of `k ++ _clean` when `k` is non-empty and
does not contain `_clean`: an occurrence straddling the boundary is
impossible because no proper prefix of `_clean` is also a suffix of it. -/
theorem cleanMark_no_boundary_occurrence (k : List Char) (hk : k ≠ [])
    (hno : ¬ (cleanMark <:+: k)) :
    cleanMark.isPrefixOf (k ++ cleanMark) = false := by
  by_contra hcon
  have hpre : cleanMark <+: (k ++ cleanMark) := by
    rw [← List.isPrefixOf_iff_prefix]
    cases h : cleanMark.isPrefixOf (k ++ cleanMark)
    · exact absurd h hcon
    · rfl
  by_cases h6 : 6 ≤ k.length
  · have hkpre : k <+: (k ++ cleanMark) := List.prefix_append k cleanMark
    have : cleanMark <+: k :=
      List.prefix_of_prefix_length_le hpre hkpre (by simpa [cleanMark] using h6)
    exact hno this.isInfix
  · have hlen : 1 ≤ k.length := by
      cases k with
      | nil => exact absurd rfl hk
      | cons a t => simp
    have hlt : k.length < 6 := by omega
    rcases hpre with ⟨t, ht⟩
    have hcell : cleanMark[k.length]? = some '_' := by
      have h1 : (cleanMark ++ t)[k.length]? = cleanMark[k.length]? :=
        List.getElem?_append_left (by simp [cleanMark]; omega)
      have h2 : (k ++ cleanMark)[k.length]? = cleanMark[0]? := by
        rw [List.getElem?_append_right (Nat.le_refl _)]
        simp
      rw [← h1, ht, h2]
      rfl
    have : k.length = 1 ∨ k.length = 2 ∨ k.length = 3 ∨ k.length = 4 ∨
        k.length = 5 := by omega
    rcases this with h | h | h | h | h <;> rw [h] at hcell <;>
      simp [cleanMark] at hcell

/-- Removing every `_clean` from `k ++ _clean` yields `k` when `k`
itself contains no `_clean`. -/
theorem stripCleanAux_boundary :
    ∀ (k : List Char) (fuel : Nat), k.length + 6 ≤ fuel →
      ¬ (cleanMark <:+: k) → stripCleanAux fuel (k ++ cleanMark) = k := by
  intro k
  induction k with
  | nil =>
    intro fuel hf _
    cases fuel with
    | zero => simp at hf
    | succ g =>
      cases g with
      | zero => simp at hf
      | succ g2 =>
        show stripCleanAux (g2 + 1 + 1) ([] ++ cleanMark) = []
        rfl
  | cons c k1 ih =>
    intro fuel hf hno
    have hno1 : ¬ (cleanMark <:+: k1) := fun h => hno (List.infix_cons h)
    cases fuel with
    | zero => simp at hf
    | succ g =>
      have hpre : cleanMark.isPrefixOf ((c :: k1) ++ cleanMark) = false :=
        cleanMark_no_boundary_occurrence (c :: k1) (by simp) hno
      have hpre1 : cleanMark.isPrefixOf (c :: (k1 ++ cleanMark)) = false := by
        rw [← List.cons_append]
        exact hpre
      show stripCleanAux (g + 1) ((c :: k1) ++ cleanMark) = c :: k1
      rw [List.cons_append]
      simp only [stripCleanAux, hpre1, Bool.false_eq_true, if_false]
      have hf1 : k1.length + 6 ≤ g := by
        simp only [List.length_cons] at hf
        omega
      rw [ih g hf1 hno1]

/-- C9 amended: discovery's key extraction inverts the loader's path
resolution for every discoverable file whose key part contains no
internal `_clean`: for such files `extractKey` strips exactly the
trailing `_clean` and resolution returns the original name.  (When the
key part itself contains `_clean`, `replace` also removes those
occurrences and the round trip fails, see the counterexample.) -/
theorem discovery_inverse (k : List Char) (hno : ¬ (cleanMark <:+: k)) :
    matchesClean (countryPath k) = true ∧
      extractKey (countryPath k) = k ∧
      countryPath (extractKey (countryPath k)) = countryPath k := by
  have hstem : stemCsv (countryPath k) = k ++ cleanMark := by
    unfold stemCsv countryPath cleanCsvTail
    rw [← List.append_assoc]
    have hlen : (k ++ cleanMark ++ csvExt).length - 4 = (k ++ cleanMark).length := by
      simp [cleanMark, csvExt]
    rw [hlen, List.take_append_eq_append_take, Nat.sub_self, List.take_zero,
      List.append_nil, List.take_of_length_le (Nat.le_refl _)]
  have hext : extractKey (countryPath k) = k := by
    unfold extractKey stripClean
    rw [hstem]
    exact stripCleanAux_boundary k (k ++ cleanMark).length (by simp [cleanMark]) hno
  refine ⟨?_, hext, by rw [hext]⟩
  unfold matchesClean countryPath
  rw [List.isSuffixOf_iff_suffix]
  exact List.suffix_append k cleanCsvTail

/-- Witness for the amended C9 at the key `US`. -/
theorem discovery_inverse_witness :
    matchesClean (countryPath keyUS) = true ∧
      extractKey (countryPath keyUS) = keyUS ∧
      countryPath (extractKey (countryPath keyUS)) = countryPath keyUS :=
  discovery_inverse keyUS (by decide)

end Solar
